import Mathlib

/-!
Verification of the CMS hospital CSV downloader pipeline (src/main.py).

The Python program is embedded shallowly:

* `snake_case` mirrors `snake_case(name)`: strip surrounding whitespace,
  lower-case, delete every character that is not a lowercase ASCII letter,
  digit or whitespace, replace each whitespace run by `_`, strip `_` from
  both ends.
* `load_metadata` / `save_metadata` act on an explicit model of the
  metadata file (`FileData`); the JSON layer of the standard library is
  modelled by the inductive `Json`.
* `fetch_hospital_datasets` filters a decoded catalog array with the
  Python membership test `'Hospitals' in d.get('theme', '')`.
* `download_and_process` takes the dataset descriptor, the prior snapshot,
  an oracle for `pd.read_csv(url)` (network fetch + parse), an oracle for
  failures of `df.to_csv` (a write either fully succeeds or raises and is
  caught, leaving the file untouched), and the current output directory
  contents; it returns the Python return value (`Except` models uncaught
  exceptions), the new directory contents, and the list of URLs for which
  a content fetch was attempted.
* `main` submits every dataset, then collects `future.result()` in submit
  order: the first uncaught worker exception aborts the run before
  `save_metadata`; otherwise the successful `(name, modified)` pairs are
  folded into a copy of the prior snapshot which is then persisted.
-/

/-! ## Characters and Python string helpers -/

/-- Lowercase ASCII letter or ASCII digit: the characters kept by the
character class `[a-z0-9]` of `re.sub(r"[^a-z0-9\s]", "", name)`. -/
def isLowerDigit (c : Char) : Bool :=
  ('a' ≤ c && c ≤ 'z') || ('0' ≤ c && c ≤ '9')

/-- The characters matched by Python's `\s` (and stripped by `str.strip()`):
ASCII whitespace, the file/group/record/unit separators, NEL, NBSP and the
Unicode space separators. -/
def isSpaceChar (c : Char) : Bool :=
  c == ' ' || c == '\t' || c == '\n' || c.val == 11 || c.val == 12 || c == '\r' ||
  c.val == 0x1c || c.val == 0x1d || c.val == 0x1e || c.val == 0x1f ||
  c.val == 0x85 || c.val == 0xa0 || c.val == 0x1680 ||
  (0x2000 ≤ c.val && c.val ≤ 0x200a) ||
  c.val == 0x2028 || c.val == 0x2029 || c.val == 0x202f ||
  c.val == 0x205f || c.val == 0x3000

/-- `str.strip()` / `str.strip("_")`: drop characters satisfying `p` from both
ends of the list. -/
def stripWhile (p : Char → Bool) (l : List Char) : List Char :=
  ((l.dropWhile p).reverse.dropWhile p).reverse

/-- Worker for `collapseWs`: the flag records whether we are inside a
whitespace run whose `_` has already been emitted. -/
def collapseAux : Bool → List Char → List Char
  | _, [] => []
  | inRun, c :: rest =>
    if isSpaceChar c then
      if inRun then collapseAux true rest else '_' :: collapseAux true rest
    else c :: collapseAux false rest

/-- `re.sub(r"\s+", "_", name)`: replace every maximal run of whitespace by a
single underscore. -/
def collapseWs (l : List Char) : List Char := collapseAux false l

/-- `snake_case` from src/main.py, on the character list of the input.
`Char.toLower` lower-cases exactly the ASCII letters; the non-ASCII letters
Python's `str.lower` would additionally map are removed by the following
filter in either case. -/
def snakeList (l : List Char) : List Char :=
  stripWhile (fun c => c == '_')
    (collapseWs
      ((stripWhile isSpaceChar l).map Char.toLower |>.filter
        (fun c => isLowerDigit c || isSpaceChar c)))

/-- `snake_case(name)` from src/main.py. -/
def snake_case (s : String) : String := ⟨snakeList s.data⟩

/-- Does the character list contain two adjacent underscores?  Used to state
that whitespace runs collapse to a *single* underscore. -/
def hasAdjUU : List Char → Bool
  | [] => false
  | [_] => false
  | a :: b :: rest => (a == '_' && b == '_') || hasAdjUU (b :: rest)

/-- Python `needle in hay` on strings: contiguous substring test. -/
def startsWithL : List Char → List Char → Bool
  | _, [] => true
  | [], _ :: _ => false
  | c :: t, d :: n => c == d && startsWithL t n

/-- Python `needle in hay` (substring occurrence). -/
def strContains (hay needle : List Char) : Bool :=
  match hay with
  | [] => needle.isEmpty
  | _ :: t => startsWithL hay needle || strContains t needle

/-! ## URL path and filename derivation

`urlparse(download_url).path` followed by `Path(file_path).name`. -/

/-- Characters allowed in a URL scheme (`scheme_chars` of `urllib.parse`). -/
def isSchemeChar (c : Char) : Bool :=
  c.isAlpha || c.isDigit || c == '+' || c == '-' || c == '.'

/-- Drop a leading `scheme:` when the text before the first `:` is a
non-empty run of scheme characters starting with an ASCII letter. -/
def splitScheme (l : List Char) : List Char :=
  let pre := l.takeWhile (fun c => !(c == ':'))
  match pre with
  | [] => l
  | c :: _ =>
    if pre.length < l.length && c.isAlpha && pre.all isSchemeChar then
      l.drop (pre.length + 1)
    else l

/-- Drop a leading `//netloc`; the path continues from the next `/`, `?`
or `#` (if any). -/
def dropNetloc : List Char → List Char
  | '/' :: '/' :: rest =>
      rest.dropWhile (fun c => !(c == '/') && !(c == '?') && !(c == '#'))
  | l => l

/-- `urlparse(url).path`: remove the fragment, the scheme, the network
location and the query, keeping the path component. -/
def urlparsePath (s : String) : String :=
  ⟨(dropNetloc (splitScheme (s.data.takeWhile (fun c => !(c == '#'))))).takeWhile
    (fun c => !(c == '?'))⟩

/-- Split a character list at every `/` (the separator of POSIX paths). -/
def splitOnSlash : List Char → List (List Char)
  | [] => [[]]
  | c :: rest =>
    if c == '/' then [] :: splitOnSlash rest
    else
      match splitOnSlash rest with
      | [] => [[c]]
      | s :: ss => (c :: s) :: ss

/-- `Path(p).name` (POSIX flavour): the last path component, with empty and
`.` components dropped; `""` when there is none. -/
def pathName (p : String) : String :=
  ⟨(((splitOnSlash p.data).filter
      (fun seg => !(seg == []) && !(seg == ['.']))).getLast?).getD []⟩

/-- The output filename derived from a download URL:
`Path(urlparse(url).path).name`. -/
def deriveName (url : String) : String := pathName (urlparsePath url)

/-! ## Data model -/

instance {e a : Type} [DecidableEq e] [DecidableEq a] : DecidableEq (Except e a) :=
  fun x y =>
  match x, y with
  | .error u, .error v =>
    if h : u = v then isTrue (h ▸ rfl) else isFalse (fun hc => h (Except.error.inj hc))
  | .ok u, .ok v =>
    if h : u = v then isTrue (h ▸ rfl) else isFalse (fun hc => h (Except.ok.inj hc))
  | .error _, .ok _ => isFalse (fun hc => Except.noConfusion hc)
  | .ok _, .error _ => isFalse (fun hc => Except.noConfusion hc)

/-- Python exceptions that escape `download_and_process` (they are raised
before its `try` block) or abort `main`. -/
inductive PyErr
  | keyError
  | indexError
  | typeError
  deriving DecidableEq

/-- The `theme` field of a catalog descriptor: absent, a plain string, or a
list of category strings. -/
inductive Theme
  | missing
  | str (s : String)
  | list (cats : List String)
  deriving DecidableEq

/-- One dataset descriptor from the decoded catalog JSON.
`title` is `none` when the `"title"` key is absent (`dataset['title']` then
raises `KeyError`); `modified` is `dataset.get('modified')`; `distribution`
is `none` when the `"distribution"` key is absent (the code then uses the
default `[{}]`), otherwise the list of the `"downloadURL"` values of its
elements (`none` for an element lacking the key). -/
structure Dataset where
  title : Option String
  theme : Theme
  modified : Option String
  distribution : Option (List (Option String))
  deriving DecidableEq

/-- The tabular data handled by `pd.read_csv` / `df.to_csv`: a header row
and the data rows. -/
structure DataFrame where
  headers : List String
  rows : List (List String)
  deriving DecidableEq

/-- The metadata snapshot as decoded from `metadata.json`: an
insertion-ordered mapping from filename to the stored `modified` value
(`none` models JSON `null`, written when a descriptor lacks `modified`). -/
abbrev Snapshot := List (String × Option String)

/-- Python `name in d and d[name]` lookup on the snapshot. -/
def lookupSnap (m : Snapshot) (k : String) : Option (Option String) :=
  match m with
  | [] => none
  | (k', v) :: rest => if k' == k then some v else lookupSnap rest k

/-- Python dict assignment `d[k] = v`: update in place if present, else
append. -/
def setSnap (m : Snapshot) (k : String) (v : Option String) : Snapshot :=
  match m with
  | [] => [(k, v)]
  | (k', v') :: rest => if k' == k then (k, v) :: rest else (k', v') :: setSnap rest k v

/-- The contents of the output directory: filename to tabular contents. -/
abbrev FileSys := List (String × DataFrame)

def getFile (fs : FileSys) (k : String) : Option DataFrame :=
  match fs with
  | [] => none
  | (k', v) :: rest => if k' == k then some v else getFile rest k

def setFile (fs : FileSys) (k : String) (v : DataFrame) : FileSys :=
  match fs with
  | [] => [(k, v)]
  | (k', v') :: rest => if k' == k then (k, v) :: rest else (k', v') :: setFile rest k v

/-! ## Catalog fetcher -/

/-- The membership test `'Hospitals' in d.get('theme', '')`: substring test
when `theme` is a string (or defaulted to `''` when absent), element
membership when it is a list. -/
def themeHasHospitals : Theme → Bool
  | .missing => strContains [] "Hospitals".data
  | .str s => strContains s.data "Hospitals".data
  | .list cats => cats.contains "Hospitals"

/-- `fetch_hospital_datasets` after the catalog JSON has been decoded:
`[d for d in data if 'Hospitals' in d.get('theme', '')]`. -/
def fetch_hospital_datasets (data : List Dataset) : List Dataset :=
  data.filter (fun d => themeHasHospitals d.theme)

/-- Modelled from the spec: "descriptors whose `theme` field contains the
substring/category \x22Hospitals\x22" — substring occurrence when the field is a
string, category membership when it is a list, never matching when absent. -/
def themeContainsHospitals : Theme → Prop
  | .missing => False
  | .str s => ∃ a b, s.data = a ++ "Hospitals".data ++ b
  | .list cats => "Hospitals" ∈ cats

/-! ## Dataset processor -/

/-- `dataset.get('distribution', [{}])[0].get('downloadURL')`: `IndexError`
when the distribution list is present but empty. -/
def firstDownloadURL (d : Dataset) : Except PyErr (Option String) :=
  match d.distribution with
  | none => .ok none
  | some [] => .error .indexError
  | some (e :: _) => .ok e

/-- `df.columns = [snake_case(col) for col in df.columns]`. -/
def transformDF (df : DataFrame) : DataFrame :=
  ⟨df.headers.map snake_case, df.rows⟩

/-- The control-flow outcome of one `download_and_process` call.
`raised` is an exception thrown before the `try` block (missing `title`,
empty `distribution` list, or `downloadURL` absent — `urlparse(None)` yields
a bytes path on which `Path` raises `TypeError`); `skipped` is the
unchanged-file early return; `failed` is an exception raised inside the
`try` block (content fetch, parse or write) and caught there; `wrote`
records the filename, the stored `modified` value, the fully transformed
table that was written, and the URL fetched. -/
inductive StepOut
  | raised (e : PyErr)
  | skipped
  | failed (url : String)
  | wrote (name : String) (modified : Option String) (df : DataFrame) (url : String)
  deriving DecidableEq

/-- The decision logic of `download_and_process(dataset, last_metadata)`.
`fetch` is the oracle for `pd.read_csv(url)`; `wfail` tells whether
`df.to_csv` raises for a given filename and table. -/
def processStep (d : Dataset) (last : Snapshot)
    (fetch : String → Except String DataFrame)
    (wfail : String → DataFrame → Bool) : StepOut :=
  match d.title with
  | none => .raised .keyError
  | some _ =>
    match firstDownloadURL d with
    | .error e => .raised e
    | .ok none => .raised .typeError
    | .ok (some url) =>
      let name := deriveName url
      if lookupSnap last name = some d.modified then .skipped
      else
        match fetch url with
        | .error _ => .failed url
        | .ok df =>
          let df2 := transformDF df
          if wfail name df2 then .failed url
          else .wrote name d.modified df2 url

/-- The value `download_and_process` returns for each outcome: an uncaught
exception for `raised`, `None` for both `skipped` and `failed`, the
`(name, modified)` pair on success. -/
def stepResult : StepOut → Except PyErr (Option (String × Option String))
  | .raised e => .error e
  | .skipped => .ok none
  | .failed _ => .ok none
  | .wrote name modified _ _ => .ok (some (name, modified))

/-- The effect of one `download_and_process` call on the output directory:
only a successful run writes (wholesale) its fully transformed table. -/
def stepFs (fs : FileSys) : StepOut → FileSys
  | .raised _ => fs
  | .skipped => fs
  | .failed _ => fs
  | .wrote name _ df _ => setFile fs name df

/-- The content-fetch attempts of one `download_and_process` call:
`pd.read_csv(download_url)` is reached exactly when the skip branch was not
taken and no exception was raised before the `try` block. -/
def stepLog : StepOut → List String
  | .raised _ => []
  | .skipped => []
  | .failed url => [url]
  | .wrote _ _ _ url => [url]

def isRaised : StepOut → Bool
  | .raised _ => true
  | .skipped => false
  | .failed _ => false
  | .wrote _ _ _ _ => false

def wroteName : StepOut → Option String
  | .raised _ => none
  | .skipped => none
  | .failed _ => none
  | .wrote name _ _ _ => some name

def wroteVal : StepOut → Option (Option String)
  | .raised _ => none
  | .skipped => none
  | .failed _ => none
  | .wrote _ modified _ _ => some modified

def isWrote (s : StepOut) : Bool := (wroteName s).isSome

/-- `download_and_process(dataset, last_metadata)` together with its effect
on the output directory: returns the Python return value (`Except` models
an uncaught exception, `Option` the `None`/pair result), the new directory
contents, and the URLs for which a content fetch was attempted. -/
def download_and_process (d : Dataset) (last : Snapshot)
    (fetch : String → Except String DataFrame)
    (wfail : String → DataFrame → Bool) (fs : FileSys) :
    Except PyErr (Option (String × Option String)) × FileSys × List String :=
  (stepResult (processStep d last fetch wfail),
   stepFs fs (processStep d last fetch wfail),
   stepLog (processStep d last fetch wfail))

/-- The return value of `download_and_process` alone (it does not depend on
the directory contents). -/
def processResult (d : Dataset) (last : Snapshot)
    (fetch : String → Except String DataFrame)
    (wfail : String → DataFrame → Bool) :
    Except PyErr (Option (String × Option String)) :=
  (download_and_process d last fetch wfail []).1

/-! ## Pipeline orchestrator -/

/-- All submitted workers run to completion (the executor's shutdown waits
for them), each reading the same prior snapshot; the directory contents are
threaded through and every attempted content fetch is logged. -/
def processAll (ds : List Dataset) (last : Snapshot)
    (fetch : String → Except String DataFrame)
    (wfail : String → DataFrame → Bool) (fs : FileSys) :
    List (Except PyErr (Option (String × Option String))) × FileSys × List String :=
  match ds with
  | [] => ([], fs, [])
  | d :: rest =>
    let out := download_and_process d last fetch wfail fs
    let outs := processAll rest last fetch wfail out.2.1
    (out.1 :: outs.1, outs.2.1, out.2.2 ++ outs.2.2)

/-- `for future in futures: result = future.result(); ...`: fold the
successful `(name, modified)` pairs into the snapshot copy in submit order;
the first uncaught worker exception re-raises and aborts the loop. -/
def collectResults :
    List (Except PyErr (Option (String × Option String))) → Snapshot →
    Except PyErr Snapshot
  | [], acc => .ok acc
  | .error e :: _, _ => .error e
  | .ok none :: rest, acc => collectResults rest acc
  | .ok (some (n, m)) :: rest, acc => collectResults rest (setSnap acc n m)

/-- `main()` after the catalog has been fetched and filtered: process every
dataset against the prior snapshot, collect the results, and either persist
the folded snapshot (`Except.ok` is the argument of `save_metadata`) or
abort with the first uncaught exception (`save_metadata` is never called).
Also returns the final directory contents and the content-fetch log. -/
def mainRun (prior : Snapshot) (datasets : List Dataset)
    (fetch : String → Except String DataFrame)
    (wfail : String → DataFrame → Bool) (fs : FileSys) :
    Except PyErr Snapshot × FileSys × List String :=
  let outs := processAll datasets prior fetch wfail fs
  (collectResults outs.1 prior, outs.2.1, outs.2.2)

/-! ## Metadata store -/

/-- The JSON values handled by `json.load` / `json.dump`. -/
inductive Json
  | null
  | bool (b : Bool)
  | num (n : Int)
  | str (s : String)
  | arr (elems : List Json)
  | obj (fields : List (String × Json))

/-- The state of the metadata file: absent, present but not parseable JSON,
or holding a JSON value. -/
inductive FileData
  | absent
  | malformed
  | content (j : Json)

/-- `load_metadata()`: the empty object when the file does not exist;
`json.load` raises (uncaught) on malformed contents; otherwise the decoded
value. -/
def load_metadata : FileData → Except Unit Json
  | .absent => .ok (.obj [])
  | .malformed => .error ()
  | .content j => .ok j

/-- The JSON object `json.dump(metadata, f, indent=2)` writes for a
string-to-string snapshot. -/
def snapshotToJson (m : List (String × String)) : Json :=
  .obj (m.map fun p => (p.1, .str p.2))

/-- `save_metadata(metadata)`: replace the file contents wholesale. -/
def save_metadata (m : List (String × String)) : FileData :=
  .content (snapshotToJson m)

/-- Read a decoded JSON value back as a string-to-string mapping. -/
def jsonToSnapshot : Json → Option (List (String × String))
  | .obj fields =>
      fields.mapM fun p =>
        match p.2 with
        | .str v => some (p.1, v)
        | _ => none
  | _ => none

/-! ## Lemmas about the string helpers -/

theorem mem_dropWhile {α : Type} {p : α → Bool} {c : α} :
    ∀ {l : List α}, c ∈ l.dropWhile p → c ∈ l := by
  intro l
  induction l with
  | nil => simp [List.dropWhile]
  | cons a t ih =>
    simp only [List.dropWhile_cons]
    split
    · intro h
      exact List.mem_cons_of_mem a (ih h)
    · exact id

theorem head?_dropWhile {α : Type} {p : α → Bool} {c : α} :
    ∀ {l : List α}, (l.dropWhile p).head? = some c → p c = false := by
  intro l
  induction l with
  | nil => simp [List.dropWhile]
  | cons a t ih =>
    simp only [List.dropWhile_cons]
    split
    · exact ih
    · next hpa =>
      intro h
      rw [List.head?_cons, Option.some.injEq] at h
      rw [← h]
      exact Bool.not_eq_true _ ▸ hpa

theorem getLast?_dropWhile {α : Type} {p : α → Bool} {c : α} :
    ∀ {l : List α}, (l.dropWhile p).getLast? = some c → l.getLast? = some c := by
  intro l
  induction l with
  | nil => simp [List.dropWhile]
  | cons a t ih =>
    simp only [List.dropWhile_cons]
    split
    · intro h
      have ht := ih h
      cases t with
      | nil => simp at ht
      | cons b t2 => rw [List.getLast?_cons_cons]; exact ht
    · exact id

theorem hasAdjUU_cons {a : Char} {t : List Char} (h : hasAdjUU (a :: t) = false) :
    hasAdjUU t = false := by
  cases t with
  | nil => rfl
  | cons b t2 =>
    simp only [hasAdjUU] at h
    exact (Bool.or_eq_false_iff.mp h).2

theorem hasAdjUU_append_left {l r : List Char} (h : hasAdjUU (l ++ r) = false) :
    hasAdjUU l = false := by
  induction l using hasAdjUU.induct with
  | case1 => rfl
  | case2 a => rfl
  | case3 a b t ih =>
    simp only [List.cons_append] at h
    simp only [hasAdjUU] at h ⊢
    rcases Bool.or_eq_false_iff.mp h with ⟨h1, h2⟩
    exact Bool.or_eq_false_iff.mpr ⟨h1, ih (by simpa using h2)⟩

theorem hasAdjUU_append_right {l r : List Char} (h : hasAdjUU (l ++ r) = false) :
    hasAdjUU r = false := by
  induction l with
  | nil => exact h
  | cons a t ih =>
    exact ih (hasAdjUU_cons (by simpa using h))

theorem mem_collapseAux {c : Char} :
    ∀ {b : Bool} {l : List Char}, c ∈ collapseAux b l →
      c = '_' ∨ (c ∈ l ∧ isSpaceChar c = false) := by
  intro b l
  induction l generalizing b with
  | nil => simp [collapseAux]
  | cons a t ih =>
    simp only [collapseAux]
    split
    · split
      · intro h
        rcases ih h with h1 | ⟨h2, h3⟩
        · exact Or.inl h1
        · exact Or.inr ⟨List.mem_cons_of_mem a h2, h3⟩
      · intro h
        rcases List.mem_cons.mp h with h1 | h1
        · exact Or.inl h1
        · rcases ih h1 with h2 | ⟨h3, h4⟩
          · exact Or.inl h2
          · exact Or.inr ⟨List.mem_cons_of_mem a h3, h4⟩
    · next hns =>
      intro h
      rcases List.mem_cons.mp h with h1 | h1
      · refine Or.inr ⟨?_, ?_⟩
        · rw [h1]; exact List.mem_cons_self a t
        · rw [h1]; exact Bool.not_eq_true _ ▸ hns
      · rcases ih h1 with h2 | ⟨h3, h4⟩
        · exact Or.inl h2
        · exact Or.inr ⟨List.mem_cons_of_mem a h3, h4⟩

/-- Inside a whitespace run the next emitted character is never an
underscore (underscores in the input were removed beforehand). -/
theorem collapseAux_true_head {l : List Char} (hni : '_' ∉ l) :
    (collapseAux true l).head? ≠ some '_' := by
  induction l with
  | nil => simp [collapseAux]
  | cons a t ih =>
    simp only [collapseAux]
    split
    · exact ih (fun h => hni (List.mem_cons_of_mem a h))
    · intro h
      rw [List.head?_cons, Option.some.injEq] at h
      exact hni (h ▸ List.mem_cons_self a t)

theorem hasAdjUU_collapseAux :
    ∀ {b : Bool} {l : List Char}, '_' ∉ l → hasAdjUU (collapseAux b l) = false := by
  intro b l
  induction l generalizing b with
  | nil => intro _; rfl
  | cons a t ih =>
    intro hni
    have hnt : '_' ∉ t := fun h => hni (List.mem_cons_of_mem a h)
    have hna : a ≠ '_' := fun h => hni (h ▸ List.mem_cons_self a t)
    simp only [collapseAux]
    split
    · split
      · exact ih hnt
      · cases hX : collapseAux true t with
        | nil => rfl
        | cons e X2 =>
          have he : e ≠ '_' := by
            intro h
            exact collapseAux_true_head hnt (by rw [hX, h, List.head?_cons])
          simp only [hasAdjUU]
          refine Bool.or_eq_false_iff.mpr ⟨?_, ?_⟩
          · simp [he]
          · rw [← hX]; exact ih hnt
    · cases hX : collapseAux false t with
      | nil => rfl
      | cons e X2 =>
        simp only [hasAdjUU]
        refine Bool.or_eq_false_iff.mpr ⟨?_, ?_⟩
        · simp [hna]
        · rw [← hX]; exact ih hnt

theorem stripWhile_mem {p : Char → Bool} {c : Char} {X : List Char}
    (h : c ∈ stripWhile p X) : c ∈ X := by
  unfold stripWhile at h
  rw [List.mem_reverse] at h
  have h2 := mem_dropWhile h
  rw [List.mem_reverse] at h2
  exact mem_dropWhile h2

theorem stripWhile_head {p : Char → Bool} {c : Char} {X : List Char}
    (h : (stripWhile p X).head? = some c) : p c = false := by
  unfold stripWhile at h
  rw [List.head?_reverse] at h
  have h2 := getLast?_dropWhile h
  rw [List.getLast?_reverse] at h2
  exact head?_dropWhile h2

theorem stripWhile_getLast {p : Char → Bool} {c : Char} {X : List Char}
    (h : (stripWhile p X).getLast? = some c) : p c = false := by
  unfold stripWhile at h
  rw [List.getLast?_reverse] at h
  exact head?_dropWhile h

theorem stripWhile_noAdj {p : Char → Bool} {X : List Char} (h : hasAdjUU X = false) :
    hasAdjUU (stripWhile p X) = false := by
  have hsplit := List.takeWhile_append_dropWhile p X
  have hZ : hasAdjUU (X.dropWhile p) = false := by
    rw [← hsplit] at h
    exact hasAdjUU_append_right h
  have hZ2 : X.dropWhile p =
      ((X.dropWhile p).reverse.dropWhile p).reverse ++
        ((X.dropWhile p).reverse.takeWhile p).reverse := by
    calc X.dropWhile p = (X.dropWhile p).reverse.reverse := (List.reverse_reverse _).symm
    _ = (((X.dropWhile p).reverse.takeWhile p) ++
          ((X.dropWhile p).reverse.dropWhile p)).reverse := by
        rw [List.takeWhile_append_dropWhile]
    _ = ((X.dropWhile p).reverse.dropWhile p).reverse ++
          ((X.dropWhile p).reverse.takeWhile p).reverse := List.reverse_append _ _
  rw [hZ2] at hZ
  exact hasAdjUU_append_left hZ

/-- C7: for every input string, `snake_case` terminates and never fails (it
is a total Lean function), its output contains only lowercase ASCII letters,
digits and underscores, has no leading or trailing underscore, and — since
every whitespace run was collapsed to one underscore — never contains two
adjacent underscores; on the spec's example it returns
`"patient_survey_score"`. -/
theorem C7_normalizer_output_shape (s : String) :
    (snake_case s).data.all (fun c => isLowerDigit c || c == '_') = true ∧
    (snake_case s).data.head?.all (fun c => !(c == '_')) = true ∧
    (snake_case s).data.getLast?.all (fun c => !(c == '_')) = true ∧
    hasAdjUU (snake_case s).data = false ∧
    snake_case "Patient Survey  Score!" = "patient_survey_score" := by
  have hrw : (snake_case s).data =
      stripWhile (fun c => c == '_')
        (collapseAux false
          (((stripWhile isSpaceChar s.data).map Char.toLower).filter
            (fun c => isLowerDigit c || isSpaceChar c))) := rfl
  have hnus : '_' ∉ ((stripWhile isSpaceChar s.data).map Char.toLower).filter
      (fun c => isLowerDigit c || isSpaceChar c) := by
    intro h
    have := (List.mem_filter.mp h).2
    simp [isLowerDigit, isSpaceChar] at this
  have hadjX : hasAdjUU (collapseAux false
      (((stripWhile isSpaceChar s.data).map Char.toLower).filter
        (fun c => isLowerDigit c || isSpaceChar c))) = false :=
    hasAdjUU_collapseAux hnus
  refine ⟨?_, ?_, ?_, ?_, rfl⟩
  · rw [List.all_eq_true]
    intro c hc
    rw [hrw] at hc
    rcases mem_collapseAux (stripWhile_mem hc) with h1 | ⟨h2, h3⟩
    · rw [h1]; simp
    · have := (List.mem_filter.mp h2).2
      rw [Bool.or_eq_true] at this
      rcases this with h4 | h4
      · rw [h4]; simp
      · rw [h4] at h3; exact absurd h3 (by simp)
  · rw [hrw]
    cases hh : (stripWhile (fun c => c == '_')
        (collapseAux false
          (((stripWhile isSpaceChar s.data).map Char.toLower).filter
            (fun c => isLowerDigit c || isSpaceChar c)))).head? with
    | none => rfl
    | some c =>
      have := stripWhile_head hh
      simp [Option.all, this]
  · rw [hrw]
    cases hh : (stripWhile (fun c => c == '_')
        (collapseAux false
          (((stripWhile isSpaceChar s.data).map Char.toLower).filter
            (fun c => isLowerDigit c || isSpaceChar c)))).getLast? with
    | none => rfl
    | some c =>
      have := stripWhile_getLast hh
      simp [Option.all, this]
  · rw [hrw]
    exact stripWhile_noAdj hadjX

/-! ## The catalog filter -/

theorem startsWithL_iff :
    ∀ (n h : List Char), startsWithL h n = true ↔ ∃ b, h = n ++ b := by
  intro n
  induction n with
  | nil =>
    intro h
    constructor
    · intro _; exact ⟨h, rfl⟩
    · intro _; cases h <;> rfl
  | cons d n2 ih =>
    intro h
    cases h with
    | nil =>
      simp only [startsWithL]
      constructor
      · intro hf; exact absurd hf (by simp)
      · rintro ⟨b, hb⟩; exact absurd hb (by simp)
    | cons c t =>
      simp only [startsWithL, Bool.and_eq_true, beq_iff_eq]
      constructor
      · rintro ⟨hcd, hs⟩
        rcases (ih t).mp hs with ⟨b, hb⟩
        exact ⟨b, by rw [hcd, hb]; rfl⟩
      · rintro ⟨b, hb⟩
        rw [List.cons_append] at hb
        injection hb with h1 h2
        exact ⟨h1, (ih t).mpr ⟨b, h2⟩⟩

theorem strContains_iff (h n : List Char) :
    strContains h n = true ↔ ∃ a b, h = a ++ n ++ b := by
  induction h with
  | nil =>
    simp only [strContains, List.isEmpty_iff]
    constructor
    · intro hn; exact ⟨[], [], by simp [hn]⟩
    · rintro ⟨a, b, hab⟩
      rcases List.append_eq_nil.mp hab.symm with ⟨h1, h2⟩
      exact (List.append_eq_nil.mp h1).2
  | cons c t ih =>
    simp only [strContains, Bool.or_eq_true]
    constructor
    · rintro (hs | hc)
      · rcases (startsWithL_iff n (c :: t)).mp hs with ⟨b, hb⟩
        exact ⟨[], b, by simpa using hb⟩
      · rcases ih.mp hc with ⟨a, b, hb⟩
        exact ⟨c :: a, b, by simp [hb]⟩
    · rintro ⟨a, b, hb⟩
      cases a with
      | nil =>
        exact Or.inl ((startsWithL_iff n (c :: t)).mpr ⟨b, by simpa using hb⟩)
      | cons a0 a2 =>
        simp only [List.cons_append, List.append_assoc] at hb
        injection hb with h1 h2
        exact Or.inr (ih.mpr ⟨a2, b, by simpa using h2⟩)

theorem themeHasHospitals_iff (t : Theme) :
    themeHasHospitals t = true ↔ themeContainsHospitals t := by
  cases t with
  | missing =>
    simp only [themeHasHospitals, themeContainsHospitals]
    constructor
    · intro hf; exact absurd hf (by decide)
    · intro hf; exact absurd hf id
  | str s =>
    simp only [themeHasHospitals, themeContainsHospitals]
    exact strContains_iff s.data "Hospitals".data
  | list cats =>
    simp only [themeHasHospitals, themeContainsHospitals]
    exact List.elem_iff

/-- C5: for every decoded catalog array, `fetch_hospital_datasets` returns
exactly the descriptors whose `theme` contains "Hospitals" (substring of a
string theme, member of a list theme); concretely, a string theme
"Hospitals - General" is included, "Nursing Homes" is excluded, a missing
theme is excluded without error, and for list themes the category
"Hospitals" is included while "Nursing Homes" is excluded. -/
theorem C5_catalog_filter :
    (∀ (data : List Dataset) (d : Dataset),
        d ∈ fetch_hospital_datasets data ↔ d ∈ data ∧ themeContainsHospitals d.theme) ∧
    fetch_hospital_datasets
        [⟨some "A", .str "Hospitals - General", some "1", some [some "u"]⟩,
         ⟨some "B", .str "Nursing Homes", some "2", some [some "v"]⟩,
         ⟨some "C", .missing, some "3", some [some "w"]⟩] =
      [⟨some "A", .str "Hospitals - General", some "1", some [some "u"]⟩] ∧
    fetch_hospital_datasets
        [⟨some "D", .list ["Hospitals"], some "4", some [some "x"]⟩,
         ⟨some "E", .list ["Nursing Homes"], some "5", some [some "y"]⟩] =
      [⟨some "D", .list ["Hospitals"], some "4", some [some "x"]⟩] := by
  refine ⟨?_, by decide, by decide⟩
  intro data d
  unfold fetch_hospital_datasets
  rw [List.mem_filter, themeHasHospitals_iff]

/-! ## Lemmas about the stores and the pipeline -/

theorem lookupSnap_setSnap_self (m : Snapshot) (k : String) (v : Option String) :
    lookupSnap (setSnap m k v) k = some v := by
  induction m with
  | nil => simp [setSnap, lookupSnap]
  | cons p t ih =>
    rcases p with ⟨k0, v0⟩
    by_cases h : k0 = k
    · simp [setSnap, lookupSnap, h]
    · simp only [setSnap, lookupSnap, beq_iff_eq, if_neg h]
      exact ih

theorem lookupSnap_setSnap_ne (m : Snapshot) (k : String) (v : Option String)
    (k' : String) (h : k' ≠ k) :
    lookupSnap (setSnap m k v) k' = lookupSnap m k' := by
  induction m with
  | nil =>
    simp only [setSnap, lookupSnap, beq_iff_eq]
    rw [if_neg (fun he => h he.symm)]
  | cons p t ih =>
    rcases p with ⟨k0, v0⟩
    by_cases h0 : k0 = k
    · simp only [setSnap, beq_iff_eq, if_pos h0, lookupSnap]
      rw [if_neg (fun he => h he.symm), if_neg (h0 ▸ fun he => h he.symm)]
    · simp only [setSnap, beq_iff_eq, if_neg h0, lookupSnap]
      by_cases h1 : k0 = k'
      · rw [if_pos h1, if_pos h1]
      · rw [if_neg h1, if_neg h1]
        exact ih

theorem getFile_setFile_self (fs : FileSys) (k : String) (v : DataFrame) :
    getFile (setFile fs k v) k = some v := by
  induction fs with
  | nil => simp [setFile, getFile]
  | cons p t ih =>
    rcases p with ⟨k0, v0⟩
    by_cases h : k0 = k
    · simp [setFile, getFile, h]
    · simp only [setFile, getFile, beq_iff_eq, if_neg h]
      exact ih

theorem getFile_setFile_ne (fs : FileSys) (k : String) (v : DataFrame)
    (k' : String) (h : k' ≠ k) :
    getFile (setFile fs k v) k' = getFile fs k' := by
  induction fs with
  | nil =>
    simp only [setFile, getFile, beq_iff_eq]
    rw [if_neg (fun he => h he.symm)]
  | cons p t ih =>
    rcases p with ⟨k0, v0⟩
    by_cases h0 : k0 = k
    · simp only [setFile, beq_iff_eq, if_pos h0, getFile]
      rw [if_neg (fun he => h he.symm), if_neg (h0 ▸ fun he => h he.symm)]
    · simp only [setFile, beq_iff_eq, if_neg h0, getFile]
      by_cases h1 : k0 = k'
      · rw [if_pos h1, if_pos h1]
      · rw [if_neg h1, if_neg h1]
        exact ih

theorem processStep_skip {d : Dataset} {last : Snapshot}
    {fetch : String → Except String DataFrame} {wfail : String → DataFrame → Bool}
    {t u : String} (h1 : d.title = some t) (h2 : firstDownloadURL d = .ok (some u))
    (h3 : lookupSnap last (deriveName u) = some d.modified) :
    processStep d last fetch wfail = .skipped := by
  unfold processStep
  rw [h1, h2]
  simp only [if_pos h3]

theorem processStep_wrote_inv {d : Dataset} {last : Snapshot}
    {fetch : String → Except String DataFrame} {wfail : String → DataFrame → Bool}
    {n : String} {m : Option String} {df : DataFrame} {u : String}
    (h : processStep d last fetch wfail = .wrote n m df u) :
    (∃ t, d.title = some t) ∧ firstDownloadURL d = .ok (some u) ∧
      n = deriveName u ∧ m = d.modified ∧
      lookupSnap last (deriveName u) ≠ some d.modified ∧
      (∃ df0, fetch u = .ok df0 ∧ df = transformDF df0) ∧
      wfail (deriveName u) df = false := by
  unfold processStep at h
  cases ht : d.title with
  | none => rw [ht] at h; exact absurd h (by simp)
  | some t =>
    rw [ht] at h
    cases hu : firstDownloadURL d with
    | error e => rw [hu] at h; exact absurd h (by simp)
    | ok uo =>
      cases uo with
      | none => rw [hu] at h; exact absurd h (by simp)
      | some u0 =>
        rw [hu] at h
        simp only at h
        by_cases hskip : lookupSnap last (deriveName u0) = some d.modified
        · rw [if_pos hskip] at h; exact absurd h (by simp)
        · rw [if_neg hskip] at h
          cases hf : fetch u0 with
          | error s => rw [hf] at h; exact absurd h (by simp)
          | ok df0 =>
            rw [hf] at h
            simp only at h
            by_cases hw : wfail (deriveName u0) (transformDF df0) = true
            · rw [if_pos hw] at h; exact absurd h (by simp)
            · rw [if_neg hw] at h
              have hinj := h
              rw [StepOut.wrote.injEq] at hinj
              obtain ⟨e1, e2, e3, e4⟩ := hinj
              subst e1; subst e2; subst e3; subst e4
              exact ⟨⟨t, rfl⟩, rfl, rfl, rfl, hskip, ⟨df0, hf, rfl⟩,
                Bool.not_eq_true _ ▸ hw⟩

theorem stepResult_error {s : StepOut} {e : PyErr} (h : stepResult s = .error e) :
    s = .raised e := by
  cases s with
  | raised e0 =>
    unfold stepResult at h
    rw [Except.error.injEq] at h
    rw [h]
  | skipped => exact absurd h (by simp [stepResult])
  | failed u => exact absurd h (by simp [stepResult])
  | wrote n m df u => exact absurd h (by simp [stepResult])

theorem stepResult_ok_some {s : StepOut} {n : String} {m : Option String}
    (h : stepResult s = .ok (some (n, m))) : ∃ df u, s = .wrote n m df u := by
  cases s with
  | raised e => exact absurd h (by simp [stepResult])
  | skipped => exact absurd h (by simp [stepResult])
  | failed u => exact absurd h (by simp [stepResult])
  | wrote n0 m0 df u =>
    unfold stepResult at h
    simp only [Except.ok.injEq, Option.some.injEq, Prod.mk.injEq] at h
    exact ⟨df, u, by rw [h.1, h.2]⟩

theorem isWrote_iff {s : StepOut} (h : isWrote s = true) :
    ∃ n m df u, s = .wrote n m df u := by
  cases s with
  | raised e => exact absurd h (by simp [isWrote, wroteName])
  | skipped => exact absurd h (by simp [isWrote, wroteName])
  | failed u => exact absurd h (by simp [isWrote, wroteName])
  | wrote n m df u => exact ⟨n, m, df, u, rfl⟩

theorem isRaised_false {s : StepOut} (h : isRaised s = false) {e : PyErr} :
    s ≠ .raised e := by
  intro hs
  rw [hs] at h
  exact absurd h (by simp [isRaised])

theorem processAll_results (last : Snapshot)
    (fetch : String → Except String DataFrame) (wfail : String → DataFrame → Bool) :
    ∀ (ds : List Dataset) (fs : FileSys),
      (processAll ds last fetch wfail fs).1 =
        ds.map (fun d => stepResult (processStep d last fetch wfail)) := by
  intro ds
  induction ds with
  | nil => intro fs; rfl
  | cons d rest ih =>
    intro fs
    simp only [processAll, List.map_cons, download_and_process]
    rw [ih]

theorem processAll_skipped (last : Snapshot)
    (fetch : String → Except String DataFrame) (wfail : String → DataFrame → Bool) :
    ∀ (ds : List Dataset) (fs : FileSys),
      (∀ d ∈ ds, processStep d last fetch wfail = .skipped) →
      processAll ds last fetch wfail fs =
        (ds.map (fun _ => .ok none), fs, []) := by
  intro ds
  induction ds with
  | nil => intro fs _; rfl
  | cons d rest ih =>
    intro fs h
    have hd := h d (List.mem_cons_self d rest)
    simp only [processAll, download_and_process, hd, stepFs, stepResult, stepLog,
      List.map_cons]
    rw [ih fs (fun d' hd' => h d' (List.mem_cons_of_mem d hd'))]
    rfl

theorem collectResults_no_error :
    ∀ (rs : List (Except PyErr (Option (String × Option String)))) (acc : Snapshot),
      (∀ r ∈ rs, ∀ e, r ≠ .error e) →
      ∃ snap, collectResults rs acc = .ok snap := by
  intro rs
  induction rs with
  | nil => intro acc _; exact ⟨acc, rfl⟩
  | cons r rest ih =>
    intro acc h
    cases r with
    | error e => exact absurd rfl (h (.error e) (List.mem_cons_self _ _) e)
    | ok o =>
      cases o with
      | none =>
        exact ih acc (fun r' hr' => h r' (List.mem_cons_of_mem _ hr'))
      | some p =>
        rcases p with ⟨n, m⟩
        exact ih (setSnap acc n m) (fun r' hr' => h r' (List.mem_cons_of_mem _ hr'))

theorem collectResults_lookup_ne :
    ∀ (rs : List (Except PyErr (Option (String × Option String))))
      (acc snap : Snapshot) (k : String),
      collectResults rs acc = .ok snap →
      (∀ n m, Except.ok (some (n, m)) ∈ rs → n ≠ k) →
      lookupSnap snap k = lookupSnap acc k := by
  intro rs
  induction rs with
  | nil =>
    intro acc snap k hc _
    unfold collectResults at hc
    rw [Except.ok.injEq] at hc
    rw [hc]
  | cons r rest ih =>
    intro acc snap k hc h
    cases r with
    | error e => exact absurd hc (by simp [collectResults])
    | ok o =>
      cases o with
      | none =>
        exact ih acc snap k hc (fun n m hm => h n m (List.mem_cons_of_mem _ hm))
      | some p =>
        rcases p with ⟨n, m⟩
        have hne : k ≠ n := fun he =>
          (h n m (List.mem_cons_self _ _)) he.symm
        rw [ih (setSnap acc n m) snap k hc
          (fun n' m' hm => h n' m' (List.mem_cons_of_mem _ hm))]
        exact lookupSnap_setSnap_ne acc n m k hne

theorem collectResults_lookup_eq :
    ∀ (rs : List (Except PyErr (Option (String × Option String))))
      (acc snap : Snapshot) (k : String) (v : Option String),
      collectResults rs acc = .ok snap →
      (∀ n m, Except.ok (some (n, m)) ∈ rs → n = k → m = v) →
      ((∃ m', Except.ok (some (k, m')) ∈ rs) ∨ lookupSnap acc k = some v) →
      lookupSnap snap k = some v := by
  intro rs
  induction rs with
  | nil =>
    intro acc snap k v hc _ hin
    unfold collectResults at hc
    rw [Except.ok.injEq] at hc
    rcases hin with ⟨m', hm'⟩ | hacc
    · exact absurd hm' (List.not_mem_nil _)
    · rw [hc] at hacc; exact hacc
  | cons r rest ih =>
    intro acc snap k v hc h hin
    cases r with
    | error e => exact absurd hc (by simp [collectResults])
    | ok o =>
      cases o with
      | none =>
        refine ih acc snap k v hc
          (fun n m hm => h n m (List.mem_cons_of_mem _ hm)) ?_
        rcases hin with ⟨m', hm'⟩ | hacc
        · rcases List.mem_cons.mp hm' with he | hm2
          · exact absurd he (by simp)
          · exact Or.inl ⟨m', hm2⟩
        · exact Or.inr hacc
      | some p =>
        rcases p with ⟨n, m⟩
        refine ih (setSnap acc n m) snap k v hc
          (fun n' m' hm => h n' m' (List.mem_cons_of_mem _ hm)) ?_
        by_cases hk : n = k
        · subst hk
          have hm := h n m (List.mem_cons_self _ _) rfl
          subst hm
          exact Or.inr (lookupSnap_setSnap_self acc n m)
        · rcases hin with ⟨m', hm'⟩ | hacc
          · rcases List.mem_cons.mp hm' with he | hm2
            · rw [Except.ok.injEq, Option.some.injEq, Prod.mk.injEq] at he
              exact absurd he.1.symm hk
            · exact Or.inl ⟨m', hm2⟩
          · refine Or.inr ?_
            rw [lookupSnap_setSnap_ne acc n m k (fun he => hk he.symm)]
            exact hacc

theorem collectResults_all_none (acc : Snapshot) :
    ∀ (ds : List Dataset),
      collectResults (ds.map fun _ => .ok none) acc = .ok acc := by
  intro ds
  induction ds with
  | nil => rfl
  | cons d rest ih => exact ih

theorem jsonToSnapshot_snapshotToJson (m : List (String × String)) :
    jsonToSnapshot (snapshotToJson m) = some m := by
  simp only [jsonToSnapshot, snapshotToJson]
  induction m with
  | nil => rfl
  | cons p t ih =>
    simp only [List.map_cons, List.mapM_cons, ih]
    rfl

/-! ## The claims -/

/-- C8: for every string-to-string snapshot, `save_metadata` followed by
`load_metadata` yields exactly the stored mapping back: the loaded JSON
value is the serialized object, and reading it as a string-to-string
mapping returns every key/value pair of the snapshot, in order, with no
extras. -/
theorem C8_metadata_roundtrip (m : List (String × String)) :
    load_metadata (save_metadata m) = .ok (snapshotToJson m) ∧
    jsonToSnapshot (snapshotToJson m) = some m :=
  ⟨rfl, jsonToSnapshot_snapshotToJson m⟩

/-- C9: `load_metadata` returns the empty mapping (the empty JSON object)
when the metadata file does not exist, and fails — the `json.load` error is
not caught anywhere, so it propagates — when the file exists but holds
malformed data. -/
theorem C9_load_missing_and_malformed :
    load_metadata .absent = .ok (Json.obj []) ∧
    load_metadata .malformed = .error () :=
  ⟨rfl, rfl⟩

/-- C1 (amended): for every descriptor that has a `title` field and whose
first distribution entry yields a download URL, and every prior snapshot:
if the snapshot contains the filename derived from the URL's last path
segment with a value exactly equal to the descriptor's `modified`, then
`download_and_process` returns "no result" (`None`), attempts no content
fetch and leaves the output directory untouched. -/
theorem C1_skip_unchanged (d : Dataset) (t u : String) (prior : Snapshot)
    (fetch : String → Except String DataFrame) (wfail : String → DataFrame → Bool)
    (fs : FileSys)
    (h1 : d.title = some t) (h2 : firstDownloadURL d = .ok (some u))
    (h3 : lookupSnap prior (deriveName u) = some d.modified) :
    download_and_process d prior fetch wfail fs = (.ok none, fs, []) := by
  unfold download_and_process
  rw [processStep_skip h1 h2 h3]
  rfl

theorem C1_skip_unchanged_witness :
    download_and_process
      ⟨some "T", Theme.str "Hospitals", some "2021-01-01", some [some "https://x.org/a.csv"]⟩
      [("a.csv", some "2021-01-01")] (fun _ => .error "net") (fun _ _ => false) [] =
      (.ok none, [], []) :=
  C1_skip_unchanged _ "T" "https://x.org/a.csv" _ _ _ _ rfl rfl (by decide)

/-- C1 counterexample: the claim quantifies over *every* descriptor, but a
descriptor without a `title` key whose derived filename is recorded
unchanged in the snapshot makes `download_and_process` raise `KeyError`
(at `dataset['title']`, before the skip check) instead of returning
"no result". -/
theorem C1_counterexample :
    deriveName "https://x.org/a.csv" = "a.csv" ∧
    lookupSnap [("a.csv", some "2021-01-01")] "a.csv" = some (some "2021-01-01") ∧
    (Dataset.mk none (Theme.str "Hospitals") (some "2021-01-01")
        (some [some "https://x.org/a.csv"])).modified = some "2021-01-01" ∧
    (download_and_process
        ⟨none, Theme.str "Hospitals", some "2021-01-01", some [some "https://x.org/a.csv"]⟩
        [("a.csv", some "2021-01-01")] (fun _ => .error "net") (fun _ _ => false) []).1 =
      .error .keyError := by
  refine ⟨by decide, by decide, rfl, by decide⟩

/-- C2: when one dataset's processing fails inside the `try` block (content
fetch, parse or write), the failure is caught at the item boundary:
`download_and_process` returns "no result" and leaves the directory
untouched; every dataset's result is still collected; the run completes,
the final snapshot is persisted, and the entry for the failed item's
filename keeps its prior value (or stays absent).  The hypotheses say that
no dataset raises before its `try` block (otherwise the run aborts, claim
C3) and that no other dataset writes the same filename. -/
theorem C2_item_failure_isolated (ds : List Dataset) (d : Dataset) (u : String)
    (prior : Snapshot) (fetch : String → Except String DataFrame)
    (wfail : String → DataFrame → Bool) (fs : FileSys)
    (hd : d ∈ ds)
    (hfail : processStep d prior fetch wfail = .failed u)
    (hnoraise : ∀ d' ∈ ds, isRaised (processStep d' prior fetch wfail) = false)
    (hnocollide : ∀ d' ∈ ds,
      wroteName (processStep d' prior fetch wfail) ≠ some (deriveName u)) :
    (download_and_process d prior fetch wfail fs).1 = .ok none ∧
    (download_and_process d prior fetch wfail fs).2.1 = fs ∧
    (processAll ds prior fetch wfail fs).1 =
      ds.map (fun x => stepResult (processStep x prior fetch wfail)) ∧
    ∃ snap1, (mainRun prior ds fetch wfail fs).1 = .ok snap1 ∧
      lookupSnap snap1 (deriveName u) = lookupSnap prior (deriveName u) := by
  have hrs := processAll_results prior fetch wfail ds fs
  refine ⟨?_, ?_, hrs, ?_⟩
  · unfold download_and_process
    rw [hfail]
    rfl
  · unfold download_and_process
    rw [hfail]
    rfl
  · have hnoerr : ∀ r ∈ (processAll ds prior fetch wfail fs).1, ∀ e, r ≠ .error e := by
      intro r hr e hre
      rw [hrs] at hr
      rcases List.mem_map.mp hr with ⟨d', hd', hmap⟩
      rw [hre] at hmap
      exact isRaised_false (hnoraise d' hd') (stepResult_error hmap)
    obtain ⟨snap1, hsnap⟩ := collectResults_no_error _ prior hnoerr
    refine ⟨snap1, hsnap, ?_⟩
    refine collectResults_lookup_ne _ prior snap1 _ hsnap ?_
    intro n m hm hn
    rw [hrs] at hm
    rcases List.mem_map.mp hm with ⟨d', hd', hmap⟩
    obtain ⟨df', u', hw⟩ := stepResult_ok_some hmap
    have hc := hnocollide d' hd'
    rw [hw] at hc
    simp only [wroteName] at hc
    exact hc (by rw [hn])

theorem C2_item_failure_isolated_witness :
    ((download_and_process
        ⟨some "F", Theme.str "Hospitals", some "f1", some [some "https://h.gov/fail.csv"]⟩
        [("fail.csv", some "f0")]
        (fun v => if v == "https://h.gov/ok.csv" then .ok ⟨["A"], [["1"]]⟩ else .error "net")
        (fun _ _ => false) []).1 = .ok none ∧
      (download_and_process
        ⟨some "F", Theme.str "Hospitals", some "f1", some [some "https://h.gov/fail.csv"]⟩
        [("fail.csv", some "f0")]
        (fun v => if v == "https://h.gov/ok.csv" then .ok ⟨["A"], [["1"]]⟩ else .error "net")
        (fun _ _ => false) []).2.1 = [] ∧
      (processAll
        [⟨some "G", Theme.str "Hospitals", some "g1", some [some "https://h.gov/ok.csv"]⟩,
         ⟨some "F", Theme.str "Hospitals", some "f1", some [some "https://h.gov/fail.csv"]⟩]
        [("fail.csv", some "f0")]
        (fun v => if v == "https://h.gov/ok.csv" then .ok ⟨["A"], [["1"]]⟩ else .error "net")
        (fun _ _ => false) []).1 =
        [⟨some "G", Theme.str "Hospitals", some "g1", some [some "https://h.gov/ok.csv"]⟩,
         ⟨some "F", Theme.str "Hospitals", some "f1", some [some "https://h.gov/fail.csv"]⟩].map
          (fun x => stepResult (processStep x [("fail.csv", some "f0")]
            (fun v => if v == "https://h.gov/ok.csv" then .ok ⟨["A"], [["1"]]⟩ else .error "net")
            (fun _ _ => false))) ∧
      ∃ snap1,
        (mainRun [("fail.csv", some "f0")]
          [⟨some "G", Theme.str "Hospitals", some "g1", some [some "https://h.gov/ok.csv"]⟩,
           ⟨some "F", Theme.str "Hospitals", some "f1", some [some "https://h.gov/fail.csv"]⟩]
          (fun v => if v == "https://h.gov/ok.csv" then .ok ⟨["A"], [["1"]]⟩ else .error "net")
          (fun _ _ => false) []).1 = .ok snap1 ∧
        lookupSnap snap1 (deriveName "https://h.gov/fail.csv") =
          lookupSnap [("fail.csv", some "f0")] (deriveName "https://h.gov/fail.csv")) :=
  C2_item_failure_isolated
    [⟨some "G", Theme.str "Hospitals", some "g1", some [some "https://h.gov/ok.csv"]⟩,
     ⟨some "F", Theme.str "Hospitals", some "f1", some [some "https://h.gov/fail.csv"]⟩]
    ⟨some "F", Theme.str "Hospitals", some "f1", some [some "https://h.gov/fail.csv"]⟩
    "https://h.gov/fail.csv" [("fail.csv", some "f0")] _ _ []
    (by decide) (by decide) (by decide) (by decide)

/-- C3: a descriptor that passes the catalog filter but lacks a `title` key
(or whose distribution yields no `downloadURL`, so `Path` is applied to the
bytes path of `urlparse(None)`) makes `download_and_process` raise before
its `try` block; the orchestrator re-raises the exception at
`future.result()`, the run aborts with that exception, and `save_metadata`
is never called — so the other dataset's successful `(filename, modified)`
result from the same run is not persisted. -/
theorem C3_pre_try_exception_aborts_run :
    fetch_hospital_datasets
        [⟨some "Good", Theme.str "Hospitals - General", some "m1",
            some [some "https://h.gov/good.csv"]⟩,
         ⟨none, Theme.list ["Hospitals"], some "m2", some [some "https://h.gov/bad.csv"]⟩] =
      [⟨some "Good", Theme.str "Hospitals - General", some "m1",
          some [some "https://h.gov/good.csv"]⟩,
       ⟨none, Theme.list ["Hospitals"], some "m2", some [some "https://h.gov/bad.csv"]⟩] ∧
    processStep ⟨none, Theme.list ["Hospitals"], some "m2", some [some "https://h.gov/bad.csv"]⟩
        []
        (fun v => if v == "https://h.gov/good.csv" then .ok ⟨["A B"], [["1"]]⟩ else .error "net")
        (fun _ _ => false) = .raised .keyError ∧
    processStep ⟨some "NoURL", Theme.str "Hospitals", some "m3", none⟩ []
        (fun v => if v == "https://h.gov/good.csv" then .ok ⟨["A B"], [["1"]]⟩ else .error "net")
        (fun _ _ => false) = .raised .typeError ∧
    processResult
        ⟨some "Good", Theme.str "Hospitals - General", some "m1",
            some [some "https://h.gov/good.csv"]⟩ []
        (fun v => if v == "https://h.gov/good.csv" then .ok ⟨["A B"], [["1"]]⟩ else .error "net")
        (fun _ _ => false) = .ok (some ("good.csv", some "m1")) ∧
    (mainRun []
        [⟨some "Good", Theme.str "Hospitals - General", some "m1",
            some [some "https://h.gov/good.csv"]⟩,
         ⟨none, Theme.list ["Hospitals"], some "m2", some [some "https://h.gov/bad.csv"]⟩]
        (fun v => if v == "https://h.gov/good.csv" then .ok ⟨["A B"], [["1"]]⟩ else .error "net")
        (fun _ _ => false) []).1 = .error .keyError := by
  decide

/-- C4 (amended): if the first run wrote every filtered dataset successfully
and any two datasets whose derived filenames coincide carry the same
`modified` string (in particular whenever the derived filenames are pairwise
distinct), then a second run against the persisted snapshot takes the skip
branch for every dataset: it attempts zero content fetches, writes nothing,
and persists the snapshot unchanged. -/
theorem C4_rerun_skips_all (ds : List Dataset) (prior snap1 : Snapshot)
    (fetch : String → Except String DataFrame) (wfail : String → DataFrame → Bool)
    (fs fs2 : FileSys)
    (h1 : ∀ d ∈ ds, isWrote (processStep d prior fetch wfail) = true)
    (h2 : ∀ d ∈ ds, ∀ d' ∈ ds,
      wroteName (processStep d prior fetch wfail) =
        wroteName (processStep d' prior fetch wfail) →
      wroteVal (processStep d prior fetch wfail) =
        wroteVal (processStep d' prior fetch wfail))
    (hrun : (mainRun prior ds fetch wfail fs).1 = .ok snap1) :
    (∀ d ∈ ds, processStep d snap1 fetch wfail = .skipped) ∧
    (mainRun snap1 ds fetch wfail fs2).2.2 = [] ∧
    (mainRun snap1 ds fetch wfail fs2).1 = .ok snap1 ∧
    (mainRun snap1 ds fetch wfail fs2).2.1 = fs2 := by
  have hrs := processAll_results prior fetch wfail ds fs
  have hcoll : collectResults (processAll ds prior fetch wfail fs).1 prior = .ok snap1 := hrun
  have hskip : ∀ d ∈ ds, processStep d snap1 fetch wfail = .skipped := by
    intro d hd
    obtain ⟨n, m, df, u, hw⟩ := isWrote_iff (h1 d hd)
    obtain ⟨⟨t, ht⟩, hurl, hn, hm, _, _, _⟩ := processStep_wrote_inv hw
    have hlk : lookupSnap snap1 (deriveName u) = some d.modified := by
      refine collectResults_lookup_eq _ prior snap1 (deriveName u) d.modified hcoll ?_ ?_
      · intro n' m' hmem hn'
        rw [hrs] at hmem
        rcases List.mem_map.mp hmem with ⟨d', hd', hmap⟩
        obtain ⟨df', u', hw'⟩ := stepResult_ok_some hmap
        have hnames : wroteName (processStep d prior fetch wfail) =
            wroteName (processStep d' prior fetch wfail) := by
          rw [hw, hw']
          simp only [wroteName]
          rw [hn, hn']
        have heq := h2 d hd d' hd' hnames
        rw [hw, hw'] at heq
        simp only [wroteVal, Option.some.injEq] at heq
        rw [← heq]
        exact hm
      · refine Or.inl ⟨m, ?_⟩
        rw [hrs]
        refine List.mem_map.mpr ⟨d, hd, ?_⟩
        rw [hw]
        simp only [stepResult]
        rw [hn]
    exact processStep_skip ht hurl hlk
  refine ⟨hskip, ?_, ?_, ?_⟩
  · show (processAll ds snap1 fetch wfail fs2).2.2 = []
    rw [processAll_skipped snap1 fetch wfail ds fs2 hskip]
  · show collectResults (processAll ds snap1 fetch wfail fs2).1 snap1 = .ok snap1
    rw [processAll_skipped snap1 fetch wfail ds fs2 hskip]
    exact collectResults_all_none snap1 ds
  · show (processAll ds snap1 fetch wfail fs2).2.1 = fs2
    rw [processAll_skipped snap1 fetch wfail ds fs2 hskip]

theorem C4_rerun_skips_all_witness :
    (mainRun [("a.csv", some "1"), ("b.csv", some "2")]
        [⟨some "A", Theme.str "Hospitals", some "1", some [some "https://x.org/a.csv"]⟩,
         ⟨some "B", Theme.str "Hospitals", some "2", some [some "https://x.org/b.csv"]⟩]
        (fun _ => .ok ⟨["H"], [["v"]]⟩) (fun _ _ => false) []).2.2 = [] ∧
    (mainRun [("a.csv", some "1"), ("b.csv", some "2")]
        [⟨some "A", Theme.str "Hospitals", some "1", some [some "https://x.org/a.csv"]⟩,
         ⟨some "B", Theme.str "Hospitals", some "2", some [some "https://x.org/b.csv"]⟩]
        (fun _ => .ok ⟨["H"], [["v"]]⟩) (fun _ _ => false) []).1 =
      .ok [("a.csv", some "1"), ("b.csv", some "2")] ∧
    (mainRun [("a.csv", some "1"), ("b.csv", some "2")]
        [⟨some "A", Theme.str "Hospitals", some "1", some [some "https://x.org/a.csv"]⟩,
         ⟨some "B", Theme.str "Hospitals", some "2", some [some "https://x.org/b.csv"]⟩]
        (fun _ => .ok ⟨["H"], [["v"]]⟩) (fun _ _ => false) []).2.1 = [] :=
  (C4_rerun_skips_all
    [⟨some "A", Theme.str "Hospitals", some "1", some [some "https://x.org/a.csv"]⟩,
     ⟨some "B", Theme.str "Hospitals", some "2", some [some "https://x.org/b.csv"]⟩]
    [] [("a.csv", some "1"), ("b.csv", some "2")]
    (fun _ => .ok ⟨["H"], [["v"]]⟩) (fun _ _ => false) [] []
    (by decide) (by decide) (by decide)).2

/-- C4 counterexample: two filtered datasets with the *same* derived
filename `a.csv` but different `modified` strings both download and are
recorded successfully on the first run (the later fold overwrites the
earlier entry), yet the second run over the identical catalog re-downloads
the first dataset: its stored value "2" differs from its own `modified`
"1", so the second run's content-fetch log is not empty. -/
theorem C4_counterexample :
    processResult ⟨some "A", Theme.str "Hospitals", some "1", some [some "https://x.org/dup/a.csv"]⟩
        [] (fun _ => .ok ⟨["H"], [["v"]]⟩) (fun _ _ => false) =
      .ok (some ("a.csv", some "1")) ∧
    processResult ⟨some "B", Theme.str "Hospitals", some "2", some [some "https://y.org/other/a.csv"]⟩
        [] (fun _ => .ok ⟨["H"], [["v"]]⟩) (fun _ _ => false) =
      .ok (some ("a.csv", some "2")) ∧
    (mainRun []
        [⟨some "A", Theme.str "Hospitals", some "1", some [some "https://x.org/dup/a.csv"]⟩,
         ⟨some "B", Theme.str "Hospitals", some "2", some [some "https://y.org/other/a.csv"]⟩]
        (fun _ => .ok ⟨["H"], [["v"]]⟩) (fun _ _ => false) []).1 =
      .ok [("a.csv", some "2")] ∧
    (mainRun [("a.csv", some "2")]
        [⟨some "A", Theme.str "Hospitals", some "1", some [some "https://x.org/dup/a.csv"]⟩,
         ⟨some "B", Theme.str "Hospitals", some "2", some [some "https://y.org/other/a.csv"]⟩]
        (fun _ => .ok ⟨["H"], [["v"]]⟩) (fun _ _ => false)
        (mainRun []
          [⟨some "A", Theme.str "Hospitals", some "1", some [some "https://x.org/dup/a.csv"]⟩,
           ⟨some "B", Theme.str "Hospitals", some "2", some [some "https://y.org/other/a.csv"]⟩]
          (fun _ => .ok ⟨["H"], [["v"]]⟩) (fun _ _ => false) []).2.1).2.2 =
      ["https://x.org/dup/a.csv"] := by
  decide

/-- C6: whenever a dataset is downloaded and written, the persisted file
holds exactly the fetched table with every column header rewritten by
`snake_case`: same column order (`List.map` preserves order), row content
unchanged, the file replaced wholesale, and no other file touched. -/
theorem C6_write_is_header_normalized_source (d : Dataset) (last : Snapshot)
    (fetch : String → Except String DataFrame) (wfail : String → DataFrame → Bool)
    (n : String) (m : Option String) (df : DataFrame) (u : String)
    (h : processStep d last fetch wfail = .wrote n m df u) (fs : FileSys) :
    ∃ df0, fetch u = .ok df0 ∧
      df.headers = df0.headers.map snake_case ∧ df.rows = df0.rows ∧
      (download_and_process d last fetch wfail fs).2.1 = setFile fs n df ∧
      getFile ((download_and_process d last fetch wfail fs).2.1) n = some df ∧
      ∀ k, k ≠ n → getFile ((download_and_process d last fetch wfail fs).2.1) k = getFile fs k := by
  obtain ⟨_, _, _, _, _, ⟨df0, hf, hdf⟩, _⟩ := processStep_wrote_inv h
  refine ⟨df0, hf, ?_, ?_, ?_, ?_, ?_⟩
  · rw [hdf]; rfl
  · rw [hdf]; rfl
  · unfold download_and_process
    rw [h]
    rfl
  · unfold download_and_process
    rw [h]
    exact getFile_setFile_self fs n df
  · intro k hk
    unfold download_and_process
    rw [h]
    exact getFile_setFile_ne fs n df k hk

theorem C6_write_is_header_normalized_source_witness :
    ∃ df0,
      (fun (_ : String) =>
        Except.ok (ε := String) (DataFrame.mk ["A B", "C!"] [["1", "2"], ["3", "4"]]))
          "https://h.gov/w.csv" = .ok df0 ∧
      (DataFrame.mk ["a_b", "c"] [["1", "2"], ["3", "4"]]).headers =
        df0.headers.map snake_case ∧
      (DataFrame.mk ["a_b", "c"] [["1", "2"], ["3", "4"]]).rows = df0.rows ∧
      (download_and_process
          ⟨some "W", Theme.str "Hospitals", some "w1", some [some "https://h.gov/w.csv"]⟩
          []
          (fun _ => .ok ⟨["A B", "C!"], [["1", "2"], ["3", "4"]]⟩)
          (fun _ _ => false) []).2.1 =
        setFile [] "w.csv" ⟨["a_b", "c"], [["1", "2"], ["3", "4"]]⟩ ∧
      getFile ((download_and_process
          ⟨some "W", Theme.str "Hospitals", some "w1", some [some "https://h.gov/w.csv"]⟩
          []
          (fun _ => .ok ⟨["A B", "C!"], [["1", "2"], ["3", "4"]]⟩)
          (fun _ _ => false) []).2.1) "w.csv" =
        some ⟨["a_b", "c"], [["1", "2"], ["3", "4"]]⟩ ∧
      ∀ k, k ≠ "w.csv" →
        getFile ((download_and_process
            ⟨some "W", Theme.str "Hospitals", some "w1", some [some "https://h.gov/w.csv"]⟩
            []
            (fun _ => .ok ⟨["A B", "C!"], [["1", "2"], ["3", "4"]]⟩)
            (fun _ _ => false) []).2.1) k = getFile [] k :=
  C6_write_is_header_normalized_source
    ⟨some "W", Theme.str "Hospitals", some "w1", some [some "https://h.gov/w.csv"]⟩
    [] (fun _ => .ok ⟨["A B", "C!"], [["1", "2"], ["3", "4"]]⟩) (fun _ _ => false)
    "w.csv" (some "w1") ⟨["a_b", "c"], [["1", "2"], ["3", "4"]]⟩ "https://h.gov/w.csv"
    (by decide) []

/-- C10: under the all-or-nothing model of the single `df.to_csv` call (the
transform is completed in full before the write is issued, and a failing
write raises and is caught leaving the target untouched, which is the
granularity the spec itself states), every `download_and_process` call
either writes the fully transformed table wholesale or leaves the output
directory exactly as it was: no partially written state exists. -/
theorem C10_all_or_nothing_write (d : Dataset) (last : Snapshot)
    (fetch : String → Except String DataFrame) (wfail : String → DataFrame → Bool)
    (fs : FileSys) :
    (∃ n m df u df0, processStep d last fetch wfail = .wrote n m df u ∧
      fetch u = .ok df0 ∧ df = transformDF df0 ∧
      (download_and_process d last fetch wfail fs).2.1 = setFile fs n df) ∨
    (download_and_process d last fetch wfail fs).2.1 = fs := by
  cases hs : processStep d last fetch wfail with
  | raised e =>
    right
    unfold download_and_process
    rw [hs]
    rfl
  | skipped =>
    right
    unfold download_and_process
    rw [hs]
    rfl
  | failed u =>
    right
    unfold download_and_process
    rw [hs]
    rfl
  | wrote n m df u =>
    left
    obtain ⟨_, _, _, _, _, ⟨df0, hf, hdf⟩, _⟩ := processStep_wrote_inv hs
    refine ⟨n, m, df, u, df0, rfl, hf, hdf, ?_⟩
    unfold download_and_process
    rw [hs]
    rfl
